import Mathlib

/-!
Verification of the strandal / icomb interaction-combinator runtime.

The development shallowly embeds the reduction engines of the repository:
* the `strandal` engine (`src/strandal/runtime.rs`), with its wire-walking
  (`walk_var`), binding, connecting and rewrite-rule functions and its
  statistics counters (`src/strandal/stats.rs`);
* the `icomb` engine (`src/icomb/runtime.rs`) with `eval_bind_walk`,
  `eval_connect_walk` and `eval_redex`;
* the slot store of `src/strandal/store.rs`.

Concurrency is resolved by the depth-first schedule: a spawned task runs to
completion at its spawn point.  Machine integers are `Nat` with explicit
bounds where the code checks them.  A Rust `panic!`/`todo!`/failed `assert!`
(and also exhaustion of the recursion fuel) is `Option.none`.
-/

namespace Strandal

/-- Term pointer of the strandal engine (`TermPtr` in `runtime.rs`):
either the unboxed eraser or a store index. -/
inductive STermPtr where
  | era : STermPtr
  | ptr : Nat → STermPtr
deriving DecidableEq, Repr

/-- Agent of the strandal engine (`Cell` as used by `runtime.rs`):
lambda/constructor, application, or duplicator with an optional label.
Ports are `Option`al: `none` is a fresh cell whose ports are written later. -/
inductive SCell where
  | lam : Option (STermPtr × STermPtr) → SCell
  | app : Option (STermPtr × STermPtr) → SCell
  | dup : Option (STermPtr × STermPtr) → Option Nat → SCell
deriving DecidableEq, Repr

/-- The value a wire can hold (`VarValue` as used by `runtime.rs`):
the unboxed Era, a bound agent pointer, or a link to another wire. -/
inductive SVarValue where
  | era : SVarValue
  | cell : Nat → SVarValue
  | var : Nat → SVarValue
deriving DecidableEq, Repr

/-- A store slot content (`Term`): a wire (with its current, possibly unset,
value) or an agent. -/
inductive STerm where
  | var : Option SVarValue → STerm
  | cell : SCell → STerm
deriving DecidableEq, Repr

/-- Modelled from the spec (§4.A slot store): the arena used by
`strandal/runtime.rs` (its source generation is not in `src/`): a contiguous
buffer with a monotonically increasing allocation index and no index
recycling; `free` marks a slot empty. -/
structure SStore where
  mem : List (Option STerm)
deriving DecidableEq, Repr

/-- The eleven per-kind interaction counters (`stats.rs`). -/
inductive RuleKind where
  | anniEraEra | anniLamLam | anniAppApp | anniDupDup
  | commDupDup | commEraApp | commEraLam | commEraDup
  | commAppLam | commAppDup | commLamDup
deriving DecidableEq, Repr

/-- The statistics counters of `stats.rs` (`LocalStats`/`GlobalStats` share
these fields; merging local stats into the global ones is additive, so the
depth-first schedule accumulates them in one record). -/
structure SStats where
  anni_era_era : Nat := 0
  anni_app_app : Nat := 0
  anni_lam_lam : Nat := 0
  anni_dup_dup : Nat := 0
  comm_dup_dup : Nat := 0
  comm_era_app : Nat := 0
  comm_era_lam : Nat := 0
  comm_era_dup : Nat := 0
  comm_app_lam : Nat := 0
  comm_app_dup : Nat := 0
  comm_lam_dup : Nat := 0
  binds : Nat := 0
  connects : Nat := 0
  alloc_cells : Nat := 0
  alloc_vars : Nat := 0
deriving DecidableEq, Repr

/-- `GlobalStats::annihilations` (`stats.rs` lines 79-81). -/
def SStats.annihilations (s : SStats) : Nat :=
  s.anni_era_era + s.anni_app_app + s.anni_lam_lam + s.anni_dup_dup

/-- `GlobalStats::commutations` (`stats.rs` lines 83-91). -/
def SStats.commutations (s : SStats) : Nat :=
  s.comm_dup_dup + s.comm_era_app + s.comm_era_lam + s.comm_era_dup +
    s.comm_app_lam + s.comm_app_dup + s.comm_lam_dup

/-- The per-kind counter selected by a `RuleKind`. -/
def SStats.get (s : SStats) : RuleKind → Nat
  | .anniEraEra => s.anni_era_era
  | .anniLamLam => s.anni_lam_lam
  | .anniAppApp => s.anni_app_app
  | .anniDupDup => s.anni_dup_dup
  | .commDupDup => s.comm_dup_dup
  | .commEraApp => s.comm_era_app
  | .commEraLam => s.comm_era_lam
  | .commEraDup => s.comm_era_dup
  | .commAppLam => s.comm_app_lam
  | .commAppDup => s.comm_app_dup
  | .commLamDup => s.comm_lam_dup

/-- Engine state: the shared store, the accumulated statistics, ghost
counters of slots allocated and freed during the run, and the ghost trace of
interactions performed (each rewrite-rule firing appends its kind). -/
structure EState where
  store : SStore
  stats : SStats := {}
  allocs : Nat := 0
  frees : Nat := 0
  events : List RuleKind := []
deriving DecidableEq, Repr

/-- `store.get(ptr)` on the bare store: the content of a slot (`none` when
out of range or freed, which the engine treats as a fatal unwrap). -/
def SStore.getSlot (s : SStore) (p : Nat) : Option STerm :=
  (s.mem.get? p).bind id

/-- `store.get(ptr)`: the content of a slot (`none` when out of range or
freed, which the engine treats as a fatal unwrap). -/
def EState.getSlot (st : EState) (p : Nat) : Option STerm :=
  st.store.getSlot p

/-- Write a slot in place (`store.set`). -/
def EState.setSlot (st : EState) (p : Nat) (t : STerm) : EState :=
  { st with store := ⟨st.store.mem.set p (some t)⟩ }

/-- `store.free(ptr)`: mark the slot empty; freeing an empty slot is a
panic (`none`). -/
def EState.freeSlot (st : EState) (p : Nat) : Option EState :=
  match st.getSlot p with
  | none => none
  | some _ =>
      some { st with store := ⟨st.store.mem.set p none⟩, frees := st.frees + 1 }

/-- `Runtime::alloc_cell` (`runtime.rs` lines 1003-1006): count the
allocation and hand out the next fresh index. -/
def EState.allocCell (st : EState) (c : SCell) : Nat × EState :=
  (st.store.mem.length,
   { st with store := ⟨st.store.mem ++ [some (.cell c)]⟩,
             stats := { st.stats with alloc_cells := st.stats.alloc_cells + 1 },
             allocs := st.allocs + 1 })

/-- `Runtime::alloc_var` (`runtime.rs` lines 997-1000). -/
def EState.allocVar (st : EState) : Nat × EState :=
  (st.store.mem.length,
   { st with store := ⟨st.store.mem ++ [some (.var none)]⟩,
             stats := { st.stats with alloc_vars := st.stats.alloc_vars + 1 },
             allocs := st.allocs + 1 })

/-- Read the wire value at a slot; a cell or an empty slot is the
`get_var` panic. -/
def EState.getVar (st : EState) (p : Nat) : Option (Option SVarValue) :=
  match st.getSlot p with
  | some (.var v) => some v
  | _ => none

/-- Read the agent at a slot; a wire or an empty slot is the `get_cell` /
`try_into().unwrap()` panic. -/
def EState.getCell (st : EState) (p : Nat) : Option SCell :=
  match st.getSlot p with
  | some (.cell c) => some c
  | _ => none

/-- Mutation of the per-kind counter selected by `k` together with the
ghost trace: this is the single place where an interaction is recorded. -/
def EState.fire (st : EState) (k : RuleKind) : EState :=
  { st with
    events := k :: st.events
    stats :=
      match k with
      | .anniEraEra => { st.stats with anni_era_era := st.stats.anni_era_era + 1 }
      | .anniLamLam => { st.stats with anni_lam_lam := st.stats.anni_lam_lam + 1 }
      | .anniAppApp => { st.stats with anni_app_app := st.stats.anni_app_app + 1 }
      | .anniDupDup => { st.stats with anni_dup_dup := st.stats.anni_dup_dup + 1 }
      | .commDupDup => { st.stats with comm_dup_dup := st.stats.comm_dup_dup + 1 }
      | .commEraApp => { st.stats with comm_era_app := st.stats.comm_era_app + 1 }
      | .commEraLam => { st.stats with comm_era_lam := st.stats.comm_era_lam + 1 }
      | .commEraDup => { st.stats with comm_era_dup := st.stats.comm_era_dup + 1 }
      | .commAppLam => { st.stats with comm_app_lam := st.stats.comm_app_lam + 1 }
      | .commAppDup => { st.stats with comm_app_dup := st.stats.comm_app_dup + 1 }
      | .commLamDup => { st.stats with comm_lam_dup := st.stats.comm_lam_dup + 1 } }

/-- `stats.inc_binds()`. -/
def EState.incBinds (st : EState) : EState :=
  { st with stats := { st.stats with binds := st.stats.binds + 1 } }

/-- `stats.inc_connects()`. -/
def EState.incConnects (st : EState) : EState :=
  { st with stats := { st.stats with connects := st.stats.connects + 1 } }

/-- The assignment closure passed to `walk_var` by its three callers:
`var.link(ptr)` from `connect_vars`, `var.assign_era()` from `bind_era`,
and `var.assign_cell(cell_ptr or freshly allocated)` from `bind_cell`. -/
inductive AssignKind where
  | link : Nat → AssignKind
  | assignEra : AssignKind
  | assignCell : Option Nat → SCell → AssignKind
deriving DecidableEq, Repr

/-- Modelled from the spec (§4.B wire cell): the primitive operations
`link` / `assign_era` / `assign_cell` of the wire generation used by
`strandal/runtime.rs` (not in `src/`) are all atomic swaps; this computes
the value swapped in.  `assign_cell` with no pointer first allocates the
cell (`bind_cell`, `runtime.rs` lines 275-279), at every walk step. -/
def assignValue (ak : AssignKind) (st : EState) : SVarValue × EState :=
  match ak with
  | .link t => (.var t, st)
  | .assignEra => (.era, st)
  | .assignCell (some p) _ => (.cell p, st)
  | .assignCell none c =>
      let (p, st') := st.allocCell c
      (.cell p, st')

/-- `Runtime::walk_var` (`runtime.rs` lines 308-361).  Swaps the assigned
value into the wire; on a prior `Unset` the wire is now set; on a prior link
it frees the wire and walks on, unless the link target is the remembered
immediate predecessor, which is treated like the final `Unset` outcome; on a
prior bound value the wire is pushed onto the free-pointer buffer and the
value returned.  Fuel exhaustion (a non-terminating walk) is `none`. -/
def walkVar (ak : AssignKind) :
    Nat → EState → List Nat → Option Nat → Nat →
    Option (SVarValue × EState × List Nat)
  | 0, _, _, _, _ => none
  | fuel + 1, st, fp, prev, vp =>
    match st.getVar vp with
    | none => none
    | some oldVal =>
      let (newVal, st1) := assignValue ak st
      let st2 := st1.setSlot vp (.var (some newVal))
      match oldVal with
      | none => some (.var vp, st2, fp)
      | some (.var w) =>
          if some w ≠ prev then
            match st2.freeSlot vp with
            | none => none
            | some st3 => walkVar ak fuel st3 fp (some vp) w
          else
            some (.var vp, st2, fp)
      | some .era => some (.era, st2, vp :: fp)
      | some (.cell c) => some (.cell c, st2, vp :: fp)

/-- Modelled from the spec (§4.F free-pointer batching): push onto the
task-local free-pointer buffer (the `FreePtrs` generation used by
`runtime.rs` is not in `src/`). -/
def pushOpt (o : Option Nat) (fp : List Nat) : List Nat :=
  match o with
  | some p => p :: fp
  | none => fp

/-- Modelled from the spec (§4.F): `FreePtrs::split` splits the buffer in
half and hands one half to the spawned child task; the numeric argument of
the source call sites is not interpreted.  First component: the half handed
to the child; second: the half the current task keeps. -/
def fpSplit (fp : List Nat) : List Nat × List Nat :=
  (fp.take (fp.length / 2), fp.drop (fp.length / 2))

/-- Modelled from the spec (§4.F): `FreePtrs::pop` (`commute` pops reusable
slots; popping an empty buffer is the source's `unwrap` panic). -/
def fpPop (fp : List Nat) : Option (Nat × List Nat) :=
  match fp with
  | [] => none
  | p :: rest => some (p, rest)

/-- `Runtime::free_ptrs` (`runtime.rs` lines 25-29): pop every pointer left
in the buffer and free its slot. -/
def drainFrees : List Nat → EState → Option EState
  | [], st => some st
  | p :: rest, st =>
    match st.freeSlot p with
    | none => none
    | some st' => drainFrees rest st'

/-- The two cell-building closures passed to `Runtime::commute`:
`commute_app_dup` passes `|ports, _| Cell::App(ports)` and
`|ports, lbl| Cell::Dup(ports, lbl)`; `commute_lam_dup` also passes
`|ports, _| Cell::App(ports)` for the lambda side (as the source does). -/
inductive CtorFn where
  | appC : CtorFn
  | dupC : CtorFn
deriving DecidableEq, Repr

/-- Apply a cell-building closure. -/
def CtorFn.build : CtorFn → Option (STermPtr × STermPtr) → Option Nat → SCell
  | .appC, ports, _ => .app ports
  | .dupC, ports, lbl => .dup ports lbl

/-- The mutually recursive functions of `strandal/runtime.rs`, as one call
type for the fuelled dispatcher. -/
inductive Call where
  | spawnEvalEquation (l r : STermPtr) (fp : Option (List Nat))
  | spawnEvalCellTerm (cp : Option Nat) (c : SCell) (t : STermPtr) (fp : List Nat)
  | spawnEvalEraTerm (t : STermPtr) (fp : List Nat)
  | evalEquation (l r : STermPtr)
  | evalEraTerm (t : STermPtr)
  | evalCellTerm (cp : Option Nat) (c : SCell) (t : STermPtr)
  | evalVarTerm (vp : Nat) (t : STermPtr)
  | evalEraPtr (p : Nat)
  | evalEraCell (cp : Option Nat) (c : SCell)
  | evalCellCell (lp : Option Nat) (lc : SCell) (rp : Option Nat) (rc : SCell)
  | bindEra (vp : Nat)
  | bindCell (vp : Nat) (cp : Option Nat) (c : SCell)
  | connectVars (lp rp : Nat)
  | anniEraEra
  | anniLamLam (lp : Option Nat) (lports : Option (STermPtr × STermPtr))
      (rp : Option Nat) (rports : Option (STermPtr × STermPtr))
  | anniAppApp (lp : Option Nat) (lports : Option (STermPtr × STermPtr))
      (rp : Option Nat) (rports : Option (STermPtr × STermPtr))
  | reduceDupDup (lp : Option Nat) (lports : Option (STermPtr × STermPtr)) (llbl : Option Nat)
      (rp : Option Nat) (rports : Option (STermPtr × STermPtr)) (rlbl : Option Nat)
  | anniDupDup (lp : Option Nat) (lports : Option (STermPtr × STermPtr))
      (rp : Option Nat) (rports : Option (STermPtr × STermPtr))
  | commDupDup (lp : Option Nat) (lports : Option (STermPtr × STermPtr))
      (rp : Option Nat) (rports : Option (STermPtr × STermPtr))
  | commEraApp (cp : Option Nat) (ports : Option (STermPtr × STermPtr))
  | commEraLam (cp : Option Nat) (ports : Option (STermPtr × STermPtr))
  | commEraDup (cp : Option Nat) (ports : Option (STermPtr × STermPtr)) (lbl : Option Nat)
  | commAppLam (appP : Option Nat) (appPorts : Option (STermPtr × STermPtr))
      (lamP : Option Nat) (lamPorts : Option (STermPtr × STermPtr))
  | commAppDup (appP : Option Nat) (appPorts : Option (STermPtr × STermPtr))
      (dupP : Option Nat) (dupPorts : Option (STermPtr × STermPtr)) (dupLbl : Option Nat)
  | commLamDup (lamP : Option Nat) (lamPorts : Option (STermPtr × STermPtr))
      (dupP : Option Nat) (dupPorts : Option (STermPtr × STermPtr)) (dupLbl : Option Nat)
  | commute (lp : Option Nat) (lports : Option (STermPtr × STermPtr)) (lf : CtorFn) (lalloc : Bool)
      (rp : Option Nat) (rports : Option (STermPtr × STermPtr)) (rf : CtorFn) (ralloc : Bool)

/-- The strandal reduction engine (`strandal/runtime.rs`), fuelled
dispatcher over `Call`, depth-first schedule: a spawned task runs to
completion at its spawn point; the `spawn*` arms model the spawned task's
body (`scope.spawn` closures), including whether the task drains its
free-pointer buffer on completion.  Returns the new shared state and the
current task's free-pointer buffer, or `none` on panic / fuel exhaustion. -/
def engine : Nat → Call → EState → List Nat → Option (EState × List Nat)
  | 0, _, _, _ => none
  | fuel + 1, call, st, fp =>
    match call with
    -- spawn_eval_equation (lines 45-64): fresh or handed buffer, eval,
    -- free all unused free ptrs, merge stats.
    | .spawnEvalEquation l r fpc =>
      match engine fuel (.evalEquation l r) st (fpc.getD []) with
      | none => none
      | some (st1, fp1) =>
        match drainFrees fp1 st1 with
        | none => none
        | some st2 => some (st2, fp)
    -- spawn_eval_cell_term (lines 66-90): eval, merge stats, free buffer.
    | .spawnEvalCellTerm cp c t fpc =>
      match engine fuel (.evalCellTerm cp c t) st fpc with
      | none => none
      | some (st1, fp1) =>
        match drainFrees fp1 st1 with
        | none => none
        | some st2 => some (st2, fp)
    -- spawn_eval_era_term (lines 92-105): eval, merge stats; the remaining
    -- free pointers of the task's buffer are dropped without being freed.
    | .spawnEvalEraTerm t fpc =>
      match engine fuel (.evalEraTerm t) st fpc with
      | none => none
      | some (st1, _fp1) => some (st1, fp)
    -- eval_equation (lines 365-386)
    | .evalEquation l r =>
      match l with
      | .era => engine fuel (.evalEraTerm r) st fp
      | .ptr p =>
        match st.getSlot p with
        | some (.cell c) => engine fuel (.evalCellTerm (some p) c r) st fp
        | some (.var _) => engine fuel (.evalVarTerm p r) st fp
        | none => none
    -- eval_era_term (lines 388-401)
    | .evalEraTerm t =>
      match t with
      | .era => engine fuel .anniEraEra st fp
      | .ptr p => engine fuel (.evalEraPtr p) st fp
    -- eval_cell_term (lines 403-435)
    | .evalCellTerm cp c t =>
      match t with
      | .era => engine fuel (.evalEraCell cp c) st fp
      | .ptr p =>
        match st.getSlot p with
        | some (.cell oc) => engine fuel (.evalCellCell cp c (some p) oc) st fp
        | some (.var _) => engine fuel (.bindCell p cp c) st fp
        | none => none
    -- eval_var_term (lines 437-469)
    | .evalVarTerm vp t =>
      match t with
      | .era => engine fuel (.bindEra vp) st fp
      | .ptr p =>
        match st.getSlot p with
        | some (.cell c) => engine fuel (.bindCell vp (some p) c) st fp
        | some (.var _) => engine fuel (.connectVars vp p) st fp
        | none => none
    -- eval_era_ptr (lines 471-487)
    | .evalEraPtr p =>
      match st.getSlot p with
      | some (.var _) => engine fuel (.bindEra p) st fp
      | some (.cell c) => engine fuel (.evalEraCell (some p) c) st fp
      | none => none
    -- eval_era_cell (lines 489-506)
    | .evalEraCell cp c =>
      match c with
      | .dup ports lbl => engine fuel (.commEraDup cp ports lbl) st fp
      | .app ports => engine fuel (.commEraApp cp ports) st fp
      | .lam ports => engine fuel (.commEraLam cp ports) st fp
    -- eval_cell_cell (lines 508-576); the app-dup / app-lam arms pass
    -- `right_ptr` as the first pointer and `left_ptr` as the second for
    -- both orders, exactly as the source does.
    | .evalCellCell lp lc rp rc =>
      match lc, rc with
      | .app lports, .app rports =>
        engine fuel (.anniAppApp lp lports rp rports) st fp
      | .lam lports, .lam rports =>
        engine fuel (.anniLamLam lp lports rp rports) st fp
      | .dup lports llbl, .dup rports rlbl =>
        engine fuel (.reduceDupDup lp lports llbl rp rports rlbl) st fp
      | .app aports, .dup dports dlbl =>
        engine fuel (.commAppDup rp aports lp dports dlbl) st fp
      | .dup dports dlbl, .app aports =>
        engine fuel (.commAppDup rp aports lp dports dlbl) st fp
      | .app aports, .lam lports2 =>
        engine fuel (.commAppLam rp aports lp lports2) st fp
      | .lam lports2, .app aports =>
        engine fuel (.commAppLam rp aports lp lports2) st fp
      | .dup dports dlbl, .lam lports2 =>
        engine fuel (.commLamDup lp lports2 rp dports dlbl) st fp
      | .lam lports2, .dup dports dlbl =>
        engine fuel (.commLamDup lp lports2 rp dports dlbl) st fp
    -- bind_era (lines 208-245)
    | .bindEra vp =>
      match walkVar .assignEra fuel st.incBinds fp none vp with
      | none => none
      | some (.era, st2, fp2) => engine fuel .anniEraEra st2 fp2
      | some (.cell cptr, st2, fp2) =>
        match st2.getCell cptr with
        | some c => engine fuel (.evalEraCell (some cptr) c) st2 fp2
        | none => none
      | some (.var _, st2, fp2) => some (st2, fp2)
    -- bind_cell (lines 247-306)
    | .bindCell vp cp c =>
      match walkVar (.assignCell cp c) fuel st.incBinds fp none vp with
      | none => none
      | some (.var _, st2, fp2) => some (st2, fp2)
      | some (.era, st2, fp2) => engine fuel (.evalEraCell cp c) st2 fp2
      | some (.cell ocp, st2, fp2) =>
        match st2.getCell ocp with
        | some oc => engine fuel (.evalCellCell cp c (some ocp) oc) st2 fp2
        | none => none
    -- connect_vars (lines 108-204)
    | .connectVars lp rp =>
      match walkVar (.link lp) fuel st.incConnects fp none rp with
      | none => none
      | some (.era, st2, fp2) => engine fuel (.bindEra lp) st2 fp2
      | some (.cell cptr, st2, fp2) =>
        match st2.getCell cptr with
        | some c => engine fuel (.bindCell lp (some cptr) c) st2 fp2
        | none => none
      | some (.var rset, st2, fp2) =>
        match walkVar (.link rset) fuel st2 fp2 none lp with
        | none => none
        | some (.var _, st3, fp3) => some (st3, fp3)
        | some (.era, st3, fp3) => engine fuel (.bindEra rset) st3 fp3
        | some (.cell cptr, st3, fp3) =>
          match st3.getCell cptr with
          | some c => engine fuel (.bindCell rset (some cptr) c) st3 fp3
          | none => none
    -- anni_era_era (lines 580-596)
    | .anniEraEra => some (st.fire .anniEraEra, fp)
    -- anni_lam_lam (lines 598-621): increments the counter and pushes both
    -- slots for freeing; the ports are not used to schedule sub-equations.
    | .anniLamLam lp _lports rp _rports =>
      some (st.fire .anniLamLam, pushOpt rp (pushOpt lp fp))
    -- anni_app_app (lines 623-646): same shape as anni_lam_lam.
    | .anniAppApp lp _lports rp _rports =>
      some (st.fire .anniAppApp, pushOpt rp (pushOpt lp fp))
    -- reduce_dup_dup (lines 653-696)
    | .reduceDupDup lp lports llbl rp rports rlbl =>
      if llbl = rlbl then
        engine fuel (.anniDupDup lp lports rp rports) (st.fire .anniDupDup) fp
      else
        engine fuel (.commDupDup lp lports rp rports) (st.fire .commDupDup) fp
    -- anni_dup_dup (lines 698-740)
    | .anniDupDup lp lports rp rports =>
      let fp2 := pushOpt rp (pushOpt lp fp)
      match lports, rports with
      | none, none => some (st, fp2)
      | some (p0, p1), none => engine fuel (.evalEquation p0 p1) st fp2
      | none, some (p0, p1) => engine fuel (.evalEquation p0 p1) st fp2
      | some (lp0, lp1), some (rp0, rp1) =>
        let (child, fp3) := fpSplit fp2
        match engine fuel (.spawnEvalEquation lp0 rp0 (some child)) st [] with
        | none => none
        | some (st1, _) => engine fuel (.evalEquation lp1 rp1) st1 fp3
    -- comm_dup_dup (lines 742-778): `todo!()` for any connected ports.
    | .commDupDup lp lports rp rports =>
      let fp2 := pushOpt rp (pushOpt lp fp)
      match lports, rports with
      | none, none => some (st, fp2)
      | _, _ => none
    -- comm_era_app (lines 780-811)
    | .commEraApp cp ports =>
      let st1 := st.fire .commEraApp
      let fp1 := pushOpt cp fp
      match ports with
      | some (p0, p1) =>
        let (child, fp2) := fpSplit fp1
        match engine fuel (.spawnEvalEraTerm p0 child) st1 [] with
        | none => none
        | some (st2, _) => engine fuel (.evalEraTerm p1) st2 fp2
      | none => engine fuel .anniEraEra st1 fp1
    -- comm_era_lam (lines 813-844)
    | .commEraLam cp ports =>
      let st1 := st.fire .commEraLam
      let fp1 := pushOpt cp fp
      match ports with
      | some (p0, p1) =>
        let (child, fp2) := fpSplit fp1
        match engine fuel (.spawnEvalEraTerm p0 child) st1 [] with
        | none => none
        | some (st2, _) => engine fuel (.evalEraTerm p1) st2 fp2
      | none => engine fuel .anniEraEra st1 fp1
    -- commute_era_dup (lines 846-876)
    | .commEraDup cp ports _lbl =>
      let st1 := st.fire .commEraDup
      let fp1 := pushOpt cp fp
      match ports with
      | some (p0, p1) =>
        let (child, fp2) := fpSplit fp1
        match engine fuel (.spawnEvalEraTerm p0 child) st1 [] with
        | none => none
        | some (st2, _) => engine fuel (.evalEraTerm p1) st2 fp2
      | none => engine fuel .anniEraEra st1 fp1
    -- commute_app_lam (lines 878-918): pushes lam then app pointer.
    | .commAppLam appP appPorts lamP lamPorts =>
      let st1 := st.fire .commAppLam
      let fp1 := pushOpt appP (pushOpt lamP fp)
      match appPorts, lamPorts with
      | some (p0, p1), some (q0, q1) =>
        let (child, fp2) := fpSplit fp1
        match engine fuel (.spawnEvalEquation p0 q0 (some child)) st1 [] with
        | none => none
        | some (st2, _) => engine fuel (.evalEquation p1 q1) st2 fp2
      | some (p0, p1), none =>
        let (child, fp2) := fpSplit fp1
        match engine fuel (.spawnEvalEquation p0 .era (some child)) st1 [] with
        | none => none
        | some (st2, _) => engine fuel (.evalEquation p1 .era) st2 fp2
      | none, some (q0, q1) =>
        let (child, fp2) := fpSplit fp1
        match engine fuel (.spawnEvalEquation .era q0 (some child)) st1 [] with
        | none => none
        | some (st2, _) => engine fuel (.evalEquation .era q1) st2 fp2
      | none, none => engine fuel (.evalEquation .era .era) st1 fp1
    -- commute_app_dup (lines 920-956); the label is used only for display
    -- in the source: the closures passed to `commute` do not capture it.
    | .commAppDup appP appPorts dupP dupPorts _dupLbl =>
      engine fuel (.commute appP appPorts .appC false dupP dupPorts .dupC true)
        (st.fire .commAppDup) fp
    -- commute_lam_dup (lines 958-994): the lambda side is duplicated with
    -- `|ports, _| Cell::App(ports)` exactly as the source passes it.
    | .commLamDup lamP lamPorts dupP dupPorts _dupLbl =>
      engine fuel (.commute lamP lamPorts .appC false dupP dupPorts .dupC true)
        (st.fire .commLamDup) fp
    -- commute (lines 1034-1173), preserving the source's argument choices:
    -- `right_0` is built with `left_1_ptr`, `right_1` with `left_fn` and
    -- `left_0_ptr`.
    | .commute lp lports lf lalloc rp rports rf ralloc =>
      let fp2 := pushOpt rp (pushOpt lp fp)
      if lports = none ∧ rports = none then
        some (st, fp2)
      else
        let stA := st.allocVar.2
        let stB := stA.allocVar.2
        let stC := stB.allocVar.2
        let stD := stC.allocVar.2
        let t1 := STermPtr.ptr st.allocVar.1
        let t2 := STermPtr.ptr stA.allocVar.1
        let t3 := STermPtr.ptr stB.allocVar.1
        let t4 := STermPtr.ptr stC.allocVar.1
        let step1 : Option (Option Nat × List Nat) :=
          if lalloc then
            match fpPop fp2 with
            | none => none
            | some (p, rest) => some (some p, rest)
          else some (none, fp2)
        match step1 with
        | none => none
        | some (left1ptr, fp3) =>
          let left0 := lf.build (some (t1, t3)) left1ptr
          let stE := if lalloc then (stD.allocCell left0).2 else stD
          let left0ptr := if lalloc then some (stD.allocCell left0).1 else none
          let left1 := lf.build (some (t4, t2)) left0ptr
          let step2 : Option (Option Nat × List Nat) :=
            if ralloc then
              match fpPop fp3 with
              | none => none
              | some (p, rest) => some (some p, rest)
            else some (none, fp3)
          match step2 with
          | none => none
          | some (_right1ptr, fp4) =>
            let right0 := rf.build (some (t4, t1)) left1ptr
            let stF := if ralloc then (stE.allocCell right0).2 else stE
            let right1 := lf.build (some (t2, t3)) left0ptr
            match lports, rports with
            | none, none => none
            | none, some (rp0, rp1) =>
              let (c1, fp5) := fpSplit fp4
              match engine fuel (.spawnEvalCellTerm none left0 rp0 c1) stF [] with
              | none => none
              | some (st1, _) =>
                let (c2, fp6) := fpSplit fp5
                match engine fuel (.spawnEvalCellTerm none left1 rp1 c2) st1 [] with
                | none => none
                | some (st2, _) =>
                  engine fuel (.evalCellCell none right0 none right1) st2 fp6
            | some (lp0, lp1), none =>
              let (c1, fp5) := fpSplit fp4
              match engine fuel (.spawnEvalCellTerm none right0 lp0 c1) stF [] with
              | none => none
              | some (st1, _) =>
                let (c2, fp6) := fpSplit fp5
                match engine fuel (.spawnEvalCellTerm none right1 lp1 c2) st1 [] with
                | none => none
                | some (st2, _) =>
                  engine fuel (.evalCellCell none left0 none left1) st2 fp6
            | some (lp0, lp1), some (rp0, rp1) =>
              let (c1, fp5) := fpSplit fp4
              match engine fuel (.spawnEvalCellTerm none right0 lp0 c1) stF [] with
              | none => none
              | some (st1, _) =>
                let (c2, fp6) := fpSplit fp5
                match engine fuel (.spawnEvalCellTerm none right1 lp1 c2) st1 [] with
                | none => none
                | some (st2, _) =>
                  let (c3, fp7) := fpSplit fp6
                  match engine fuel (.spawnEvalCellTerm none left0 rp0 c3) st2 [] with
                  | none => none
                  | some (st3, _) =>
                    engine fuel (.evalCellTerm none left1 rp1) st3 fp7

/-- `Net` (`strandal/net.rs` lines 38-43): head terms, equation body, and
the owned store. -/
structure SNet where
  head : List STermPtr
  body : List (STermPtr × STermPtr)
  store : SStore
deriving DecidableEq, Repr

/-- The drain loop of `Runtime::eval` (`runtime.rs` lines 31-43): each
drained equation is spawned via `spawn_eval_equation` with no inherited
free-pointer buffer; depth-first, each spawned task runs to completion. -/
def evalBody (fuel : Nat) : List (STermPtr × STermPtr) → EState → Option EState
  | [], st => some st
  | (l, r) :: rest, st =>
    match engine fuel (.spawnEvalEquation l r none) st [] with
    | none => none
    | some (st', _) => evalBody fuel rest st'

/-- `Runtime::eval` (`runtime.rs` lines 31-43): drain the body (leaving it
empty) and evaluate every equation; the head list is not touched and the
net keeps its (now mutated) store.  Returns the evaluated net and the final
engine state. -/
def runtimeEval (fuel : Nat) (net : SNet) : Option (SNet × EState) :=
  match evalBody fuel net.body { store := net.store } with
  | none => none
  | some st' => some ({ net with body := [], store := st'.store }, st')

/-- The classification outcome of evaluating an equation: which of the
eleven rewrite rules is selected, or a bind (`stats.inc_binds`), or a
connect (`stats.inc_connects`). -/
inductive EqKind where
  | rule : RuleKind → EqKind
  | bind : EqKind
  | connect : EqKind
deriving DecidableEq, Repr

/-- The rule selected for two resolved agents: the dispatch of
`eval_cell_cell` (`runtime.rs` lines 508-576) together with the label test
of `reduce_dup_dup` (lines 667-682). -/
def classifyCells (lc rc : SCell) : EqKind :=
  match lc, rc with
  | .app _, .app _ => .rule .anniAppApp
  | .lam _, .lam _ => .rule .anniLamLam
  | .dup _ ll, .dup _ rl => .rule (if ll = rl then .anniDupDup else .commDupDup)
  | .app _, .dup _ _ => .rule .commAppDup
  | .dup _ _, .app _ => .rule .commAppDup
  | .app _, .lam _ => .rule .commAppLam
  | .lam _, .app _ => .rule .commAppLam
  | .dup _ _, .lam _ => .rule .commLamDup
  | .lam _, .dup _ _ => .rule .commLamDup

/-- The rule selected when the eraser meets an agent: the dispatch of
`eval_era_cell` (`runtime.rs` lines 489-506). -/
def classifyEraCell (c : SCell) : EqKind :=
  match c with
  | .dup _ _ => .rule .commEraDup
  | .app _ => .rule .commEraApp
  | .lam _ => .rule .commEraLam

/-- The classification performed on draining an equation `(L, R)`: the
dispatch chain `eval_equation` → `eval_era_term` / `eval_cell_term` /
`eval_var_term` → `eval_era_ptr` / `eval_era_cell` / `eval_cell_cell`
(`runtime.rs` lines 365-576), keeping only which counter-incrementing
action is selected.  `none` is the source's unwrap panic on a freed slot. -/
def classify (s : SStore) (l r : STermPtr) : Option EqKind :=
  match l with
  | .era =>
    match r with
    | .era => some (.rule .anniEraEra)
    | .ptr q =>
      match s.getSlot q with
      | some (.var _) => some .bind
      | some (.cell c) => some (classifyEraCell c)
      | none => none
  | .ptr p =>
    match s.getSlot p with
    | none => none
    | some (.cell c) =>
      match r with
      | .era => some (classifyEraCell c)
      | .ptr q =>
        match s.getSlot q with
        | some (.cell oc) => some (classifyCells c oc)
        | some (.var _) => some .bind
        | none => none
    | some (.var _) =>
      match r with
      | .era => some .bind
      | .ptr q =>
        match s.getSlot q with
        | some (.cell _) => some .bind
        | some (.var _) => some .connect
        | none => none

end Strandal

namespace Icomb

/-- `CellPtr` (`icomb/net/cell.rs`): the unboxed eraser or a store index. -/
inductive CellPtrI where
  | era : CellPtrI
  | ref : Nat → CellPtrI
deriving DecidableEq, Repr

/-- `TermPtr` (`icomb`): an agent reference or a wire reference. -/
inductive TermPtrI where
  | cellPtr : CellPtrI → TermPtrI
  | varPtr : Nat → TermPtrI
deriving DecidableEq, Repr

/-- `Cell` (`icomb`): constructor or duplicator, two ports each. -/
inductive ICell where
  | ctr : TermPtrI → TermPtrI → ICell
  | dup : TermPtrI → TermPtrI → ICell
deriving DecidableEq, Repr

/-- The two ports of a cell (`Cell::ports`). -/
def ICell.p0 : ICell → TermPtrI
  | .ctr a _ => a
  | .dup a _ => a

/-- Second port. -/
def ICell.p1 : ICell → TermPtrI
  | .ctr _ b => b
  | .dup _ b => b

/-- `Term` (`icomb`): a wire (holding an optional term reference, the
`VarValue` of `icomb/net/var.rs`) or an agent. -/
inductive ITerm where
  | var : Option TermPtrI → ITerm
  | cell : ICell → ITerm
deriving DecidableEq, Repr

/-- The state of the icomb runtime: the store slots and the six counters
of `icomb/runtime.rs` (lines 21-28). -/
structure IState where
  mem : List (Option ITerm)
  anni : Nat := 0
  comm : Nat := 0
  eras : Nat := 0
  redexes : Nat := 0
  binds : Nat := 0
  connects : Nat := 0
deriving DecidableEq, Repr

/-- Slot lookup (`none`: out of range or freed). -/
def IState.getSlot (st : IState) (p : Nat) : Option ITerm :=
  (st.mem.get? p).bind id

/-- `Store::get_var` (`icomb/store.rs`): panics unless the slot holds a
wire. -/
def IState.getVar (st : IState) (p : Nat) : Option (Option TermPtrI) :=
  match st.getSlot p with
  | some (.var v) => some v
  | _ => none

/-- Write a wire's value in place (the swap half of `Var::set`). -/
def IState.setVar (st : IState) (p : Nat) (v : Option TermPtrI) : IState :=
  { st with mem := st.mem.set p (some (.var v)) }

/-- `Store::free_var` (`icomb/store.rs`): empty the slot; freeing an empty
slot panics. -/
def IState.freeVar (st : IState) (p : Nat) : Option IState :=
  match st.getSlot p with
  | none => none
  | some _ => some { st with mem := st.mem.set p none }

/-- `Store::consume_cell` followed by `.unwrap()` (`icomb/runtime.rs`):
read the agent at a slot; a wire or an empty slot panics.  The slot is
read, not cleared. -/
def IState.consumeCell (st : IState) (p : Nat) : Option ICell :=
  match st.getSlot p with
  | some (.cell c) => some c
  | _ => none

/-- `Store::free_cell`: empty the slot; freeing an empty slot panics. -/
def IState.freeCell (st : IState) (p : Nat) : Option IState :=
  match st.getSlot p with
  | none => none
  | some _ => some { st with mem := st.mem.set p none }

/-- `Store::write_cell`: unconditional raw write of an agent. -/
def IState.writeCell (st : IState) (p : Nat) (c : ICell) : IState :=
  { st with mem := st.mem.set p (some (.cell c)) }

/-- `Store::alloc_var`: hand out a fresh slot holding an unset wire. -/
def IState.allocVar (st : IState) : Nat × IState :=
  (st.mem.length, { st with mem := st.mem ++ [some (.var none)] })

/-- `Store::alloc_cell`: hand out a fresh slot holding an agent. -/
def IState.allocCell (st : IState) (c : ICell) : Nat × IState :=
  (st.mem.length, { st with mem := st.mem ++ [some (.cell c)] })

/-- The outcome of `eval_bind_walk` (`icomb/runtime.rs` lines 289-312):
either the wire chain ended unset and the value is now stored, or a prior
bound value was found and the equation becomes the interaction
`eval_redex(value, prior)`. -/
inductive BindOutcome where
  | done : BindOutcome
  | redex : CellPtrI → CellPtrI → BindOutcome
deriving DecidableEq, Repr

/-- `eval_bind_walk` (`icomb/runtime.rs` lines 289-312), with the final
`eval_redex` continuation returned as an outcome: swap the value into the
wire; a prior link frees the wire and walks on with the same value; a prior
bound value turns the bind into an interaction; a prior `Unset` completes
the bind. -/
def bindWalk : Nat → IState → Nat → CellPtrI → Option (BindOutcome × IState)
  | 0, _, _, _ => none
  | fuel + 1, st, vp, cptr =>
    match st.getVar vp with
    | none => none
    | some old =>
      let st1 := st.setVar vp (some (.cellPtr cptr))
      match old with
      | some (.varPtr w) =>
        match st1.freeVar vp with
        | none => none
        | some st2 => bindWalk fuel st2 w cptr
      | some (.cellPtr oc) => some (.redex cptr oc, st1)
      | none => some (.done, st1)

/-- The outcome of `eval_connect_walk` (`icomb/runtime.rs` lines 514-570):
walk completed, or collapsed into a redex to spawn, or into a bind. -/
inductive ConnOutcome where
  | done : ConnOutcome
  | redex : CellPtrI → CellPtrI → ConnOutcome
  | bind : Nat → CellPtrI → ConnOutcome
deriving DecidableEq, Repr

/-- `eval_connect_walk` (`icomb/runtime.rs` lines 514-570), with the
`spawn_redex` / `eval_bind` continuations returned as outcomes.  Note the
walk keeps no record of its predecessor. -/
def connectWalk : Nat → IState → Nat → Option Nat → TermPtrI →
    Option (ConnOutcome × IState)
  | 0, _, _, _, _ => none
  | fuel + 1, st, vp, other, value =>
    match st.getVar vp with
    | none => none
    | some old =>
      let st1 := st.setVar vp (some value)
      match old with
      | none => some (.done, st1)
      | some (.cellPtr c) =>
        match st1.freeVar vp with
        | none => none
        | some st2 =>
          match other with
          | some ovp => connectWalk fuel st2 ovp none (.cellPtr c)
          | none =>
            match value with
            | .cellPtr l => some (.redex l c, st2)
            | .varPtr v => some (.bind v c, st2)
      | some (.varPtr next) =>
        match st1.freeVar vp with
        | none => none
        | some st2 => connectWalk fuel st2 next other value

/-- `Equation` (`icomb/net.rs` lines 40-53). -/
inductive IEquation where
  | redex : CellPtrI → CellPtrI → IEquation
  | bind : Nat → CellPtrI → IEquation
  | connect : Nat → Nat → IEquation
deriving DecidableEq, Repr

/-- `Net` (`icomb/net.rs` lines 55-60). -/
structure INet where
  head : List Nat
  body : List IEquation
deriving DecidableEq, Repr

/-- `Net::redex` (`icomb/net.rs` lines 116-121): push a redex equation,
with no check that the two pointers differ. -/
def INet.redex (n : INet) (left right : CellPtrI) : INet :=
  { n with body := n.body ++ [.redex left right] }

/-- The mutually recursive evaluation functions of `icomb/runtime.rs`. -/
inductive ICall where
  | evalEquation (e : IEquation)
  | reduceEquation (lt rt : TermPtrI)
  | evalEquationForCell (lt : TermPtrI) (c : CellPtrI)
  | evalRedex (l r : CellPtrI)
  | evalBind (vp : Nat) (c : CellPtrI)
  | evalConnect (l r : Nat)

/-- The icomb reduction engine (`icomb/runtime.rs`), fuelled dispatcher,
depth-first schedule (`spawn_redex` runs `eval_redex` at the spawn
point).  `none` is a panic — in particular the failed
`assert!(left_cell_ptr != right_cell_ptr)` at the head of `eval_redex`
(lines 184-199) — or fuel exhaustion. -/
def iengine : Nat → ICall → IState → Option IState
  | 0, _, _ => none
  | fuel + 1, call, st =>
    match call with
    -- eval_equation (lines 116-133)
    | .evalEquation e =>
      match e with
      | .redex l r => iengine fuel (.evalRedex l r) st
      | .bind v c => iengine fuel (.evalBind v c) st
      | .connect l r => iengine fuel (.evalConnect l r) st
    -- reduce_equation (lines 135-155)
    | .reduceEquation lt rt =>
      match lt, rt with
      | .cellPtr l, .cellPtr r => iengine fuel (.evalRedex l r) st
      | .cellPtr c, .varPtr v => iengine fuel (.evalBind v c) st
      | .varPtr v, .cellPtr c => iengine fuel (.evalBind v c) st
      | .varPtr l, .varPtr r => iengine fuel (.evalConnect l r) st
    -- eval_equation_for_cell (lines 157-171)
    | .evalEquationForCell lt c =>
      match lt with
      | .cellPtr l => iengine fuel (.evalRedex l c) st
      | .varPtr v => iengine fuel (.evalBind v c) st
    -- eval_redex (lines 184-270)
    | .evalRedex l r =>
      if l = r then none
      else
        let st0 := { st with redexes := st.redexes + 1 }
        match l, r with
        | .era, .era => some { st0 with eras := st0.eras + 1 }
        | .era, .ref p =>
          let st1 := { st0 with comm := st0.comm + 1 }
          match st1.consumeCell p with
          | none => none
          | some c =>
            match iengine fuel (.reduceEquation (.cellPtr .era) c.p0) st1 with
            | none => none
            | some st2 => iengine fuel (.reduceEquation (.cellPtr .era) c.p1) st2
        | .ref p, .era =>
          let st1 := { st0 with comm := st0.comm + 1 }
          match st1.consumeCell p with
          | none => none
          | some c =>
            match iengine fuel (.reduceEquation (.cellPtr .era) c.p0) st1 with
            | none => none
            | some st2 => iengine fuel (.reduceEquation (.cellPtr .era) c.p1) st2
        | .ref lptr, .ref rptr =>
          match st0.consumeCell lptr, st0.consumeCell rptr with
          | some lc, some rc =>
            let afterMatch : Option IState :=
              match lc, rc with
              -- annihilate CTR-CTR / DUP-DUP (lines 224-237)
              | .ctr lp0 lp1, .ctr rp0 rp1 =>
                let st1 := { st0 with anni := st0.anni + 1 }
                match iengine fuel (.reduceEquation lp0 rp0) st1 with
                | none => none
                | some st2 => iengine fuel (.reduceEquation lp1 rp1) st2
              | .dup lp0 lp1, .dup rp0 rp1 =>
                let st1 := { st0 with anni := st0.anni + 1 }
                match iengine fuel (.reduceEquation lp0 rp0) st1 with
                | none => none
                | some st2 => iengine fuel (.reduceEquation lp1 rp1) st2
              -- commute CTR-DUP / DUP-CTR (lines 239-263): the reused
              -- pointers are taken from left/right position, not from
              -- which side held the constructor, exactly as the source.
              | .ctr cp0 cp1, .dup dp0 dp1 =>
                let st1 := { st0 with comm := st0.comm + 1 }
                let (v1, stA) := st1.allocVar
                let (v2, stB) := stA.allocVar
                let (v3, stC) := stB.allocVar
                let (v4, stD) := stC.allocVar
                let ctrPtr := CellPtrI.ref lptr
                let dupPtr := CellPtrI.ref rptr
                let (ctr2, stE) := stD.allocCell (.ctr (.varPtr v3) (.varPtr v4))
                let (dup2, stF) := stE.allocCell (.dup (.varPtr v3) (.varPtr v4))
                let stG := stF.writeCell lptr (.ctr (.varPtr v1) (.varPtr v2))
                let stH := stG.writeCell rptr (.dup (.varPtr v1) (.varPtr v2))
                match iengine fuel (.evalEquationForCell cp0 dupPtr) stH with
                | none => none
                | some st2 =>
                  match iengine fuel (.reduceEquation cp1 (.cellPtr (.ref dup2))) st2 with
                  | none => none
                  | some st3 =>
                    match iengine fuel (.evalEquationForCell dp0 ctrPtr) st3 with
                    | none => none
                    | some st4 =>
                      iengine fuel (.reduceEquation dp1 (.cellPtr (.ref ctr2))) st4
              | .dup dp0 dp1, .ctr cp0 cp1 =>
                let st1 := { st0 with comm := st0.comm + 1 }
                let (v1, stA) := st1.allocVar
                let (v2, stB) := stA.allocVar
                let (v3, stC) := stB.allocVar
                let (v4, stD) := stC.allocVar
                let ctrPtr := CellPtrI.ref lptr
                let dupPtr := CellPtrI.ref rptr
                let (ctr2, stE) := stD.allocCell (.ctr (.varPtr v3) (.varPtr v4))
                let (dup2, stF) := stE.allocCell (.dup (.varPtr v3) (.varPtr v4))
                let stG := stF.writeCell lptr (.ctr (.varPtr v1) (.varPtr v2))
                let stH := stG.writeCell rptr (.dup (.varPtr v1) (.varPtr v2))
                match iengine fuel (.evalEquationForCell cp0 dupPtr) stH with
                | none => none
                | some st2 =>
                  match iengine fuel (.reduceEquation cp1 (.cellPtr (.ref dup2))) st2 with
                  | none => none
                  | some st3 =>
                    match iengine fuel (.evalEquationForCell dp0 ctrPtr) st3 with
                    | none => none
                    | some st4 =>
                      iengine fuel (.reduceEquation dp1 (.cellPtr (.ref ctr2))) st4
            match afterMatch with
            | none => none
            | some stM =>
              -- free of both slots after the match (lines 266-267)
              match stM.freeCell lptr with
              | none => none
              | some stN => stN.freeCell rptr
          | _, _ => none
    -- eval_bind (lines 272-287) with the walk of lines 289-312
    | .evalBind vp c =>
      let st0 := { st with binds := st.binds + 1 }
      match bindWalk fuel st0 vp c with
      | none => none
      | some (.done, st1) => some st1
      | some (.redex v o, st1) => iengine fuel (.evalRedex v o) st1
    -- eval_connect (lines 572-622) with the walk of lines 514-570
    | .evalConnect l r =>
      let st0 := { st with connects := st.connects + 1 }
      match connectWalk fuel st0 r (some l) (.varPtr l) with
      | none => none
      | some (.done, st1) => some st1
      | some (.redex a b, st1) => iengine fuel (.evalRedex a b) st1
      | some (.bind v c, st1) => iengine fuel (.evalBind v c) st1

end Icomb

namespace RStoreModel

/-- `u32::MAX`. -/
def u32Max : Nat := 2 ^ 32 - 1

/-- `Store` (`strandal/store.rs` lines 53-85): a buffer of `capacity`
slots (`Store::new` allocates exactly `capacity` entries) and the
monotonically increasing `next` index, which starts at 1. -/
structure Store where
  capacity : Nat
  next : Nat
deriving DecidableEq, Repr

/-- `Store::new` (`store.rs` lines 72-85). -/
def Store.new (capacity : Nat) : Store :=
  { capacity := capacity, next := 1 }

/-- `Store::alloc_cell` (`store.rs` lines 95-103): take the next index,
`assert!(index < u32::MAX, "Store full")`, and write the slot at that raw
index — the capacity is never consulted.  Returns the raw index written
(and the advanced store), or `none` when the assertion aborts. -/
def Store.allocCell (s : Store) : Option (Nat × Store) :=
  let index := s.next
  if index < u32Max then some (index, { s with next := s.next + 1 })
  else none

/-- Whether a raw write at `index` lands outside the buffer of
`capacity` slots allocated by `Store::new`. -/
def Store.writeOutside (s : Store) (index : Nat) : Prop :=
  s.capacity ≤ index

end RStoreModel

section Claims

open Strandal Icomb RStoreModel

/-- The number of live (occupied) slots of a store, as tracked by the
source's `len` counter. -/
def Strandal.SStore.live (s : SStore) : Nat :=
  (s.mem.filter Option.isSome).length

/-- A store with two duplicators of equal label (slots 0 and 1) whose
ports are the fresh wires 2, 3 and 4, 5. -/
def c2StoreEq : Strandal.EState :=
  { store := ⟨[some (.cell (.dup (some (.ptr 2, .ptr 3)) (some 7))),
               some (.cell (.dup (some (.ptr 4, .ptr 5)) (some 7))),
               some (.var none), some (.var none),
               some (.var none), some (.var none)]⟩ }

/-- The same store with distinct duplicator labels. -/
def c2StoreNe : Strandal.EState :=
  { store := ⟨[some (.cell (.dup (some (.ptr 2, .ptr 3)) (some 7))),
               some (.cell (.dup (some (.ptr 4, .ptr 5)) (some 8))),
               some (.var none), some (.var none),
               some (.var none), some (.var none)]⟩ }

/-- A store with two lambda agents (slots 0 and 1) whose ports are the
fresh wires 2, 3 and 4, 5. -/
def c3StoreLam : Strandal.EState :=
  { store := ⟨[some (.cell (.lam (some (.ptr 2, .ptr 3)))),
               some (.cell (.lam (some (.ptr 4, .ptr 5)))),
               some (.var none), some (.var none),
               some (.var none), some (.var none)]⟩ }

/-- A store with two application agents (slots 0 and 1) whose ports are
the fresh wires 2, 3 and 4, 5. -/
def c3StoreApp : Strandal.EState :=
  { store := ⟨[some (.cell (.app (some (.ptr 2, .ptr 3)))),
               some (.cell (.app (some (.ptr 4, .ptr 5)))),
               some (.var none), some (.var none),
               some (.var none), some (.var none)]⟩ }

/-- A net with no head wires and the single equation `* ~ δ(w, *)`, where
the wire `w` (slot 0) is already bound to Era and the duplicator lives in
slot 1; the builder has allocated 2 slots. -/
def c6Net : Strandal.SNet :=
  { head := [], body := [(.era, .ptr 1)],
    store := ⟨[some (.var (some .era)),
               some (.cell (.dup (some (.ptr 0, .era)) none))]⟩ }

/-- The net with the single equation `* ~ *` and an empty store. -/
def c7Net : Strandal.SNet :=
  { head := [], body := [(.era, .era)], store := ⟨[]⟩ }

/-- The result of evaluating `c7Net`: one era-era annihilation. -/
def c7Res : Strandal.SNet × Strandal.EState :=
  ({ head := [], body := [], store := ⟨[]⟩ },
   { store := ⟨[]⟩, stats := { anni_era_era := 1 }, events := [.anniEraEra] })

/-- A store with two distinct constructor agents (slots 2 and 5) whose
ports are the fresh wires 0, 1 and 3, 4. -/
def c10Store : IState :=
  { mem := [some (.var none), some (.var none),
            some (.cell (.ctr (.varPtr 0) (.varPtr 1))),
            some (.var none), some (.var none),
            some (.cell (.ctr (.varPtr 3) (.varPtr 4)))] }

/-- The spec's bind-walk configuration: `ws` is a chain of pairwise
distinct wires, each linked to the next, whose last wire holds `endv` —
`none` for `Unset` or `some c` for a bound final value `c`. -/
def isBindChain (st : IState) : List Nat → Option CellPtrI → Bool
  | [], _ => false
  | [w], endv =>
      decide (st.getVar w = some (endv.map TermPtrI.cellPtr))
  | w :: w' :: rest, endv =>
      decide (st.getVar w = some (some (.varPtr w'))) &&
      decide (w ∉ w' :: rest) &&
      isBindChain st (w' :: rest) endv

/-- The outcome the spec's walk prescribes for a chain ending in `endv`:
bind complete on `Unset`, an interaction between the bound value `v` and
the prior value otherwise. -/
def bindOutcomeOf (v : CellPtrI) : Option CellPtrI → BindOutcome
  | none => .done
  | some c => .redex v c

/-- The last wire of the chain `w :: tail`. -/
def chainLast (w : Nat) : List Nat → Nat
  | [] => w
  | w' :: rest => chainLast w' rest

/-- All wires of the chain `w :: tail` except the last one (the
intermediate links the walk frees). -/
def chainInit (w : Nat) : List Nat → List Nat
  | [] => []
  | w' :: rest => w :: chainInit w' rest

/-- How a strandal wire chain ends: the last wire is unset, bound to Era,
bound to an agent, or linked back to its immediate predecessor (the two
mutually linked wires of a connect race). -/
inductive ChainEnd where
  | unset : ChainEnd
  | era : ChainEnd
  | cell : Nat → ChainEnd
  | linkBack : ChainEnd
deriving DecidableEq, Repr

/-- A walkable strandal wire chain: starting with predecessor `prev`, the
wires are pairwise distinct, each linked to the next and never back to the
walker's immediate predecessor, and the last wire ends as `e`
(`linkBack`: it is linked to its own immediate predecessor). -/
def isLinkChain (st : Strandal.EState) : Option Nat → List Nat → ChainEnd → Bool
  | _, [], _ => false
  | prev, [w], e =>
    match e with
    | .unset => decide (st.getVar w = some none)
    | .era => decide (st.getVar w = some (some .era))
    | .cell c => decide (st.getVar w = some (some (.cell c)))
    | .linkBack =>
      match prev with
      | some p => decide (st.getVar w = some (some (.var p)))
      | none => false
  | prev, w :: w' :: rest, e =>
      decide (st.getVar w = some (some (.var w'))) &&
      decide (some w' ≠ prev) &&
      decide (w ∉ w' :: rest) &&
      isLinkChain st (some w) (w' :: rest) e

/-- The value `walk_var` returns for a chain ending as `e`: the final-wire
pointer both on a prior `Unset` and on a link back to the predecessor
(which the walker treats as the same, final, outcome), and the prior bound
value otherwise. -/
def endVal (e : ChainEnd) (lastw : Nat) : Strandal.SVarValue :=
  match e with
  | .unset => .var lastw
  | .linkBack => .var lastw
  | .era => .era
  | .cell c => .cell c

/-- The statistics invariant: every per-kind interaction counter equals
the number of interactions of that kind in the ghost trace. -/
def StatsInv (st : Strandal.EState) : Prop :=
  ∀ k, st.stats.get k = st.events.count k

/-- C8: the claim says an allocation requested beyond the store's capacity
is fatal and never writes outside the fixed buffer.  The code
(`Store::alloc_cell`, `store.rs` lines 95-103) only asserts
`index < u32::MAX`: with capacity 2, the second allocation hands out raw
index 2 — outside the 2-slot buffer — without aborting, and in general the
allocation aborts only when `next` reaches `u32::MAX`, regardless of the
capacity. -/
theorem C8_alloc_beyond_capacity_not_fatal :
    (Store.new 2).allocCell = some (1, { capacity := 2, next := 2 }) ∧
    (Store.allocCell { capacity := 2, next := 2 })
        = some (2, { capacity := 2, next := 3 }) ∧
    Store.writeOutside { capacity := 2, next := 2 } 2 ∧
    (∀ s : Store, s.allocCell = none ↔ u32Max ≤ s.next) := by
  refine ⟨by decide, by decide, by simp [Store.writeOutside], fun s => ?_⟩
  unfold Store.allocCell
  by_cases h : s.next < u32Max
  · simp [h]
  · simp [h]; omega

/-- C9 counterexample: the claim says the head-wire list is empty after
`Runtime::eval`; on the net with one head term and no equations,
evaluation succeeds and the head list is untouched (and non-empty). -/
theorem C9_counterexample :
    runtimeEval 1 { head := [.era], body := [], store := ⟨[]⟩ }
        = some ({ head := [.era], body := [], store := ⟨[]⟩ }, { store := ⟨[]⟩ }) ∧
    (STermPtr.era :: [] : List STermPtr) ≠ [] := by
  exact ⟨rfl, by decide⟩

/-- C9 (amended): after `Runtime::eval` returns, the net's equation buffer
is empty (it is drained), its head-wire list is exactly what it was before
evaluation (it is not cleared), and the net still owns the (mutated)
store of the evaluation. -/
theorem C9_eval_clears_body_keeps_head :
    ∀ fuel net res, runtimeEval fuel net = some res →
      res.1.body = [] ∧ res.1.head = net.head ∧ res.1.store = res.2.store := by
  intro fuel net res h
  unfold runtimeEval at h
  cases hb : evalBody fuel net.body { store := net.store } with
  | none => rw [hb] at h; cases h
  | some st' => rw [hb] at h; cases h; exact ⟨rfl, rfl, rfl⟩

/-- Witness for C9's amended theorem at a concrete net and its concrete
evaluation result. -/
theorem C9_eval_clears_body_keeps_head_witness :
    ({ head := [.era], body := [], store := ⟨[]⟩ } : Strandal.SNet).body = [] ∧
    ({ head := [.era], body := [], store := ⟨[]⟩ } : Strandal.SNet).head
        = ({ head := [.era], body := [], store := ⟨[]⟩ } : Strandal.SNet).head ∧
    ({ head := [.era], body := [], store := ⟨[]⟩ } : Strandal.SNet).store
        = ({ store := ⟨[]⟩ } : Strandal.EState).store :=
  C9_eval_clears_body_keeps_head 1
    { head := [.era], body := [], store := ⟨[]⟩ }
    ({ head := [.era], body := [], store := ⟨[]⟩ }, { store := ⟨[]⟩ }) rfl

/-- C10: `eval_redex` aborts, via its `assert!(left_cell_ptr !=
right_cell_ptr)`, on every redex whose two sides are the same cell pointer
(for any store, any fuel); the builder `Net::redex` happily constructs such
a self-redex; and a redex with two distinct cell pointers passes the
assertion and reduction proceeds (here the annihilation of the two
constructors in `c10Store`, connecting their ports pairwise and freeing
both slots). -/
theorem C10_self_redex_assertion :
    (∀ fuel st l, iengine (fuel + 1) (.evalRedex l l) st = none) ∧
    ((INet.redex ⟨[], []⟩ (.ref 2) (.ref 2)).body
        = [.redex (.ref 2) (.ref 2)]) ∧
    (iengine 9 (.evalRedex (.ref 2) (.ref 5)) c10Store
        = some { mem := [some (.var none), some (.var none), none,
                         some (.var (some (.varPtr 0))),
                         some (.var (some (.varPtr 1))), none],
                 anni := 1, redexes := 1, connects := 2 }) := by
  refine ⟨?_, by decide, by decide⟩
  intro fuel st l
  simp [iengine]

/-- C5: for every store and every pair of term references, draining the
equation `(L, R)` selects the same counter-incrementing action as draining
`(R, L)` (same rewrite rule, or bind, or connect; panics included). -/
theorem C5_classify_symmetric :
    ∀ (s : SStore) (l r : STermPtr), classify s l r = classify s r l := by
  have hc : ∀ lc rc : SCell, classifyCells lc rc = classifyCells rc lc := by
    intro lc rc
    cases lc <;> cases rc <;> simp [classifyCells]
    case dup.dup pl ll pr rl =>
      rcases eq_or_ne ll rl with h | h
      · simp [h]
      · simp [h, Ne.symm h]
  intro s l r
  cases l with
  | era =>
    cases r with
    | era => rfl
    | ptr q =>
      simp only [classify]
      cases hq : s.getSlot q with
      | none => rfl
      | some t => cases t <;> rfl
  | ptr p =>
    cases r with
    | era =>
      simp only [classify]
      cases hp : s.getSlot p with
      | none => rfl
      | some t => cases t <;> rfl
    | ptr q =>
      simp only [classify]
      cases hp : s.getSlot p with
      | none =>
        cases hq : s.getSlot q with
        | none => rfl
        | some t => cases t <;> rfl
      | some t =>
        cases hq : s.getSlot q with
        | none => cases t <;> rfl
        | some u => cases t <;> cases u <;> simp [hc]

/-- C2: for two duplicators with equal labels the engine annihilates:
evaluating `δ_7(2,3) ⋈ δ_7(4,5)` as a task schedules the sub-equations
`2 = 4` and `3 = 5` (both resolve as connects, mutually linking the wires)
and frees both agent slots.  For distinct labels, however, the engine
panics in `comm_dup_dup`'s `todo!("comm dup-dup not yet implemented")`
instead of performing the claimed 4-way duplication. -/
theorem C2_dup_dup_annihilates_but_commutation_panics :
    (engine 20 (.spawnEvalEquation (.ptr 0) (.ptr 1) none) c2StoreEq []
      = some
        ({ store := ⟨[none, none,
                      some (.var (some (.var 4))), some (.var (some (.var 5))),
                      some (.var (some (.var 2))), some (.var (some (.var 3)))]⟩,
           stats := { anni_dup_dup := 1, connects := 2 },
           frees := 2,
           events := [.anniDupDup] }, [])) ∧
    engine 20 (.spawnEvalEquation (.ptr 0) (.ptr 1) none) c2StoreNe [] = none := by
  exact ⟨by decide, by decide⟩

/-- C3: the claim says `lam(a,b) ⋈ lam(c,d)` (and likewise for two
applications) schedules `a = c` and `b = d` and frees both slots.  The
engine (`anni_lam_lam` / `anni_app_app`) frees both agent slots but
schedules no sub-equation at all: after evaluating `λ(2,3) ⋈ λ(4,5)` as a
task the wires 2–5 are still unset and no bind or connect was counted
(compare the duplicator annihilation, which does link its ports). -/
theorem C3_lam_lam_app_app_drop_subequations :
    (engine 20 (.spawnEvalEquation (.ptr 0) (.ptr 1) none) c3StoreLam []
      = some
        ({ store := ⟨[none, none, some (.var none), some (.var none),
                      some (.var none), some (.var none)]⟩,
           stats := { anni_lam_lam := 1 },
           frees := 2,
           events := [.anniLamLam] }, [])) ∧
    (engine 20 (.spawnEvalEquation (.ptr 0) (.ptr 1) none) c3StoreApp []
      = some
        ({ store := ⟨[none, none, some (.var none), some (.var none),
                      some (.var none), some (.var none)]⟩,
           stats := { anni_app_app := 1 },
           frees := 2,
           events := [.anniAppApp] }, [])) := by
  exact ⟨by decide, by decide⟩

/-- C6: on `c6Net` (no head wires, builder allocated 2 slots), evaluation
terminates but the task spawned through `spawn_eval_era_term` drops its
free-pointer buffer without draining it: the wire slot 0, pushed onto that
buffer during the bind walk, is never freed.  Slots allocated (2 by the
builder, 0 at runtime) minus slots freed (1) is 1, not the number of head
wires (0), and the leaked slot is still live in the final store. -/
theorem C6_era_task_leaks_free_pointer_buffer :
    (runtimeEval 20 c6Net
      = some
        ({ head := [], body := [],
           store := ⟨[some (.var (some .era)), none]⟩ },
         { store := ⟨[some (.var (some .era)), none]⟩,
           stats := { anni_era_era := 2, comm_era_dup := 1, binds := 1 },
           frees := 1,
           events := [.anniEraEra, .anniEraEra, .commEraDup] })) ∧
    (c6Net.store.mem.length + 0) - 1 = 1 ∧
    c6Net.head.length = 0 ∧
    Strandal.SStore.live ⟨[some (.var (some .era)), none]⟩ = 1 := by
  refine ⟨by decide, by decide, by decide, by decide⟩

theorem Icomb.IState.getVar_lt {st : IState} {w : Nat} {x : Option TermPtrI}
    (h : st.getVar w = some x) : w < st.mem.length := by
  unfold IState.getVar IState.getSlot at h
  cases hg : st.mem.get? w with
  | none => rw [hg] at h; cases h
  | some t => exact (List.get?_eq_some.mp hg).1

theorem Icomb.IState.getSlot_setVar_self {st : IState} {w : Nat} (v : Option TermPtrI)
    (h : w < st.mem.length) : (st.setVar w v).getSlot w = some (.var v) := by
  unfold IState.setVar IState.getSlot
  simp [List.getElem?_set_eq_of_lt _ h]

theorem Icomb.IState.getVar_setVar_self {st : IState} {w : Nat} (v : Option TermPtrI)
    (h : w < st.mem.length) : (st.setVar w v).getVar w = some v := by
  unfold IState.getVar
  rw [IState.getSlot_setVar_self v h]

theorem Icomb.IState.getSlot_setVar_ne {st : IState} {w x : Nat} (v : Option TermPtrI)
    (h : x ≠ w) : (st.setVar w v).getSlot x = st.getSlot x := by
  unfold IState.setVar IState.getSlot
  simp [List.getElem?_set_ne (Ne.symm h)]

theorem Icomb.IState.freeVar_setVar (st : IState) {w : Nat} (v : Option TermPtrI)
    (h : w < st.mem.length) :
    (st.setVar w v).freeVar w = some { st with mem := st.mem.set w none } := by
  unfold IState.freeVar
  rw [IState.getSlot_setVar_self v h]
  unfold IState.setVar
  simp [List.set_set]

theorem Icomb.IState.getSlot_setNone_self (st : IState) {w : Nat}
    (h : w < st.mem.length) :
    ({ st with mem := st.mem.set w none } : IState).getSlot w = none := by
  unfold IState.getSlot
  simp [List.getElem?_set_eq_of_lt _ h]

theorem Icomb.IState.getSlot_setNone_ne (st : IState) {w x : Nat} (h : x ≠ w) :
    ({ st with mem := st.mem.set w none } : IState).getSlot x = st.getSlot x := by
  unfold IState.getSlot
  simp [List.getElem?_set_ne (Ne.symm h)]

theorem Icomb.IState.getVar_congr {st st' : IState} {x : Nat}
    (h : st'.getSlot x = st.getSlot x) : st'.getVar x = st.getVar x := by
  unfold IState.getVar
  rw [h]

theorem isBindChain_congr :
    ∀ (ws : List Nat) (st st' : IState) (endv : Option CellPtrI),
      (∀ x ∈ ws, st'.getVar x = st.getVar x) →
      isBindChain st' ws endv = isBindChain st ws endv := by
  intro ws
  induction ws with
  | nil => intro st st' endv _; rfl
  | cons w tail ih =>
    intro st st' endv h
    cases tail with
    | nil => simp [isBindChain, h w (by simp)]
    | cons w' rest =>
      have hw := h w (by simp)
      have hrest := ih st st' endv (fun x hx => h x (by simp [hx]))
      simp [isBindChain, hw, hrest]

/-- C1: the engine performs the spec's bind walk (`eval_bind_walk`,
`icomb/runtime.rs` lines 289-312).  Along any chain of distinct wires
`w :: tail` ending in `endv`, binding the value `v` to `w` terminates with
the spec's outcome: if the end wire was `Unset` the bind is complete, and
if it held a bound final value `c` the equation becomes the interaction
between `v` and `c`; every intermediate link of the chain has been freed,
the end wire now holds `v` (swapped in atomically), and no slot outside
the chain is touched. -/
theorem C1_bind_walk_follows_spec :
    ∀ (tail : List Nat) (w : Nat) (st : IState) (v : CellPtrI)
      (endv : Option CellPtrI) (fuel : Nat),
      isBindChain st (w :: tail) endv = true →
      (w :: tail).length ≤ fuel →
      ∃ st',
        bindWalk fuel st w v = some (bindOutcomeOf v endv, st') ∧
        (∀ x ∈ chainInit w tail, st'.getSlot x = none) ∧
        st'.getVar (chainLast w tail) = some (some (.cellPtr v)) ∧
        (∀ x, x ∉ w :: tail → st'.getSlot x = st.getSlot x) := by
  intro tail
  induction tail with
  | nil =>
    intro w st v endv fuel hchain hfuel
    match fuel, hfuel with
    | fuel + 1, _ =>
      simp only [isBindChain, decide_eq_true_eq] at hchain
      have hlt := IState.getVar_lt hchain
      refine ⟨st.setVar w (some (.cellPtr v)), ?_, ?_, ?_, ?_⟩
      · unfold bindWalk
        rw [hchain]
        cases endv with
        | none => rfl
        | some c => rfl
      · intro x hx; cases hx
      · exact IState.getVar_setVar_self _ hlt
      · intro x hx
        exact IState.getSlot_setVar_ne _ (by simpa using hx)
  | cons w' rest ih =>
    intro w st v endv fuel hchain hfuel
    match fuel, hfuel with
    | fuel + 1, hfuel =>
      simp only [isBindChain, Bool.and_eq_true, decide_eq_true_eq] at hchain
      obtain ⟨⟨hlink, hnotmem⟩, hrest⟩ := hchain
      have hlt := IState.getVar_lt hlink
      set st2 : IState :=
        { st with mem := st.mem.set w none } with hst2
      have hchain2 : isBindChain st2 (w' :: rest) endv = true := by
        rw [isBindChain_congr (w' :: rest) st st2 endv ?_]
        · exact hrest
        · intro x hx
          exact IState.getVar_congr (st.getSlot_setNone_ne (fun hxw => hnotmem (hxw ▸ hx)))
      have hfuel2 : (w' :: rest).length ≤ fuel := by
        simpa using Nat.succ_le_succ_iff.mp hfuel
      obtain ⟨st', hwalk, hinit, hlast, hframe⟩ := ih w' st2 v endv fuel hchain2 hfuel2
      refine ⟨st', ?_, ?_, ?_, ?_⟩
      · unfold bindWalk
        rw [hlink]
        show (match (st.setVar w (some (.cellPtr v))).freeVar w with
              | none => none
              | some st2 => bindWalk fuel st2 w' v) =
            some (bindOutcomeOf v endv, st')
        rw [IState.freeVar_setVar st _ hlt]
        exact hwalk
      · intro x hx
        simp only [chainInit] at hx
        rcases List.mem_cons.mp hx with hxw | hx'
        · subst hxw
          rw [hframe x hnotmem]
          exact st.getSlot_setNone_self hlt
        · exact hinit x hx'
      · exact hlast
      · intro x hx
        have hxw : x ≠ w := fun h => hx (h ▸ List.mem_cons_self _ _)
        have hx' : x ∉ w' :: rest := fun h => hx (List.mem_cons_of_mem _ h)
        rw [hframe x hx']
        exact st.getSlot_setNone_ne hxw

/-- Witness for C1 at a concrete three-wire chain `0 → 1 → 2` whose end is
unset, bound with the eraser. -/
theorem C1_bind_walk_follows_spec_witness :
    isBindChain
        { mem := [some (.var (some (.varPtr 1))), some (.var (some (.varPtr 2))),
                  some (.var none)] }
        [0, 1, 2] none = true ∧
    ∃ st',
      bindWalk 3
          { mem := [some (.var (some (.varPtr 1))), some (.var (some (.varPtr 2))),
                    some (.var none)] }
          0 .era = some (bindOutcomeOf .era none, st') ∧
      (∀ x ∈ chainInit 0 [1, 2], st'.getSlot x = none) ∧
      st'.getVar (chainLast 0 [1, 2]) = some (some (.cellPtr .era)) ∧
      (∀ x, x ∉ [0, 1, 2] →
        st'.getSlot x =
          IState.getSlot
            { mem := [some (.var (some (.varPtr 1))), some (.var (some (.varPtr 2))),
                      some (.var none)] } x) := by
  refine ⟨by decide, ?_⟩
  exact C1_bind_walk_follows_spec [1, 2] 0 _ .era none 3 (by decide) (by decide)

theorem Strandal.EState.getVar_isSome_lt {st : Strandal.EState} {w : Nat}
    {x : Option SVarValue} (h : st.getVar w = some x) :
    w < st.store.mem.length := by
  unfold Strandal.EState.getVar Strandal.EState.getSlot SStore.getSlot at h
  cases hg : st.store.mem.get? w with
  | none => rw [hg] at h; cases h
  | some t => exact (List.get?_eq_some.mp hg).1

theorem Strandal.EState.getSlot_setSlot_self {st : Strandal.EState} {w : Nat}
    (t : STerm) (h : w < st.store.mem.length) :
    (st.setSlot w t).getSlot w = some t := by
  unfold Strandal.EState.setSlot Strandal.EState.getSlot SStore.getSlot
  simp [List.getElem?_set_eq_of_lt _ h]

theorem Strandal.EState.getVar_setSlot_self {st : Strandal.EState} {w : Nat}
    (v : Option SVarValue) (h : w < st.store.mem.length) :
    (st.setSlot w (.var v)).getVar w = some v := by
  unfold Strandal.EState.getVar
  rw [Strandal.EState.getSlot_setSlot_self _ h]

theorem Strandal.EState.getSlot_setSlot_ne {st : Strandal.EState} {w x : Nat}
    (t : STerm) (h : x ≠ w) : (st.setSlot w t).getSlot x = st.getSlot x := by
  unfold Strandal.EState.setSlot Strandal.EState.getSlot SStore.getSlot
  simp [List.getElem?_set_ne (Ne.symm h)]

theorem Strandal.EState.freeSlot_setSlot (st : Strandal.EState) {w : Nat}
    (t : STerm) (h : w < st.store.mem.length) :
    (st.setSlot w t).freeSlot w
      = some { st with store := ⟨st.store.mem.set w none⟩,
                       frees := st.frees + 1 } := by
  unfold Strandal.EState.freeSlot
  rw [Strandal.EState.getSlot_setSlot_self _ h]
  unfold Strandal.EState.setSlot
  simp [List.set_set]

theorem Strandal.EState.getSlot_freed_ne (st : Strandal.EState) {w x : Nat}
    (h : x ≠ w) :
    ({ st with store := ⟨st.store.mem.set w none⟩,
               frees := st.frees + 1 } : Strandal.EState).getSlot x
      = st.getSlot x := by
  unfold Strandal.EState.getSlot SStore.getSlot
  simp [List.getElem?_set_ne (Ne.symm h)]

theorem Strandal.EState.getVar_ext {st st' : Strandal.EState} {x : Nat}
    (h : st'.getSlot x = st.getSlot x) : st'.getVar x = st.getVar x := by
  unfold Strandal.EState.getVar
  rw [h]

theorem isLinkChain_congr :
    ∀ (ws : List Nat) (st st' : Strandal.EState) (prev : Option Nat) (e : ChainEnd),
      (∀ x ∈ ws, st'.getVar x = st.getVar x) →
      isLinkChain st' prev ws e = isLinkChain st prev ws e := by
  intro ws
  induction ws with
  | nil => intro st st' prev e _; rfl
  | cons w tail ih =>
    intro st st' prev e h
    cases tail with
    | nil =>
      have hw := h w (by simp)
      cases e <;> simp [isLinkChain, hw]
    | cons w' rest =>
      have hw := h w (by simp)
      have hrest := ih st st' (some w) e (fun x hx => h x (by simp [hx]))
      simp [isLinkChain, hw, hrest]

/-- C4: the strandal connect walk (`walk_var`, `runtime.rs` lines 308-361,
with the `var.link` assignment of `connect_vars`) terminates on every wire
chain that is acyclic except possibly for its last wire being linked back
to its immediate predecessor — the two mutually linked wires of a connect
race.  In that `linkBack` case the walk returns the same final result as
when the last wire was `Unset` (`endVal` maps both to `.var lastw`),
ending the walk instead of ping-ponging between the two wires. -/
theorem C4_connect_walk_terminates :
    ∀ (tail : List Nat) (w : Nat) (st : Strandal.EState) (fp : List Nat)
      (tgt : Nat) (e : ChainEnd) (prev : Option Nat) (fuel : Nat),
      isLinkChain st prev (w :: tail) e = true →
      (w :: tail).length ≤ fuel →
      ∃ st' fp',
        walkVar (.link tgt) fuel st fp prev w
          = some (endVal e (chainLast w tail), st', fp') := by
  intro tail
  induction tail with
  | nil =>
    intro w st fp tgt e prev fuel hchain hfuel
    match fuel, hfuel with
    | fuel + 1, _ =>
      cases e with
      | unset =>
        simp only [isLinkChain, decide_eq_true_eq] at hchain
        refine ⟨st.setSlot w (.var (some (.var tgt))), fp, ?_⟩
        unfold walkVar
        rw [hchain]
        rfl
      | era =>
        simp only [isLinkChain, decide_eq_true_eq] at hchain
        refine ⟨st.setSlot w (.var (some (.var tgt))), w :: fp, ?_⟩
        unfold walkVar
        rw [hchain]
        rfl
      | cell c =>
        simp only [isLinkChain, decide_eq_true_eq] at hchain
        refine ⟨st.setSlot w (.var (some (.var tgt))), w :: fp, ?_⟩
        unfold walkVar
        rw [hchain]
        rfl
      | linkBack =>
        cases prev with
        | none => simp [isLinkChain] at hchain
        | some p =>
          simp only [isLinkChain, decide_eq_true_eq] at hchain
          refine ⟨st.setSlot w (.var (some (.var tgt))), fp, ?_⟩
          unfold walkVar
          rw [hchain]
          simp only [assignValue, endVal, chainLast, ne_eq, not_true_eq_false,
            if_false, Option.some.injEq]
  | cons w' rest ih =>
    intro w st fp tgt e prev fuel hchain hfuel
    match fuel, hfuel with
    | fuel + 1, hfuel =>
      simp only [isLinkChain, Bool.and_eq_true, decide_eq_true_eq] at hchain
      obtain ⟨⟨⟨hlink, hne⟩, hnotmem⟩, hrest⟩ := hchain
      have hlt := Strandal.EState.getVar_isSome_lt hlink
      set st3 : Strandal.EState :=
        { st with store := ⟨st.store.mem.set w none⟩, frees := st.frees + 1 }
        with hst3
      have hchain3 : isLinkChain st3 (some w) (w' :: rest) e = true := by
        rw [isLinkChain_congr (w' :: rest) st st3 (some w) e ?_]
        · exact hrest
        · intro x hx
          exact Strandal.EState.getVar_ext
            (st.getSlot_freed_ne (fun hxw => hnotmem (hxw ▸ hx)))
      have hfuel3 : (w' :: rest).length ≤ fuel := by
        simpa using Nat.succ_le_succ_iff.mp hfuel
      obtain ⟨st', fp', hwalk⟩ := ih w' st3 fp tgt e (some w) fuel hchain3 hfuel3
      refine ⟨st', fp', ?_⟩
      unfold walkVar
      rw [hlink]
      show (if some w' ≠ prev then
              match (st.setSlot w (.var (some (.var tgt)))).freeSlot w with
              | none => none
              | some st3 => walkVar (.link tgt) fuel st3 fp (some w) w'
            else some (.var w, st.setSlot w (.var (some (.var tgt))), fp))
          = some (endVal e (chainLast w (w' :: rest)), st', fp')
      rw [if_pos hne, Strandal.EState.freeSlot_setSlot st _ hlt]
      exact hwalk

/-- Witness for C4 at the two mutually linked wires 0 and 1: the walk from
wire 0 terminates and returns the final-`Unset`-style result `.var 1`. -/
theorem C4_connect_walk_terminates_witness :
    isLinkChain
        { store := ⟨[some (.var (some (.var 1))), some (.var (some (.var 0)))]⟩ }
        none [0, 1] .linkBack = true ∧
    ∃ st' fp',
      walkVar (.link 5) 2
          { store := ⟨[some (.var (some (.var 1))), some (.var (some (.var 0)))]⟩ }
          [] none 0
        = some (endVal .linkBack (chainLast 0 [1]), st', fp') := by
  refine ⟨by decide, ?_⟩
  exact C4_connect_walk_terminates [1] 0 _ [] 5 .linkBack none 2 (by decide) (by decide)

theorem StatsInv.fire {st : Strandal.EState} (h : StatsInv st) (k : RuleKind) :
    StatsInv (st.fire k) := by
  intro k'
  have hcount : (st.fire k).events.count k'
      = st.events.count k' + if k = k' then 1 else 0 := by
    show (k :: st.events).count k' = _
    simp [List.count_cons, beq_iff_eq]
  have hget : (st.fire k).stats.get k'
      = st.stats.get k' + if k = k' then 1 else 0 := by
    cases k <;> cases k' <;> simp [Strandal.EState.fire, SStats.get]
  rw [hget, hcount, h k']

theorem StatsInv.setSlot {st : Strandal.EState} (h : StatsInv st) (p : Nat)
    (t : STerm) : StatsInv (st.setSlot p t) := h

theorem StatsInv.freeSlot {st st' : Strandal.EState} {p : Nat}
    (heq : st.freeSlot p = some st') (h : StatsInv st) : StatsInv st' := by
  unfold Strandal.EState.freeSlot at heq
  cases hg : st.getSlot p with
  | none => rw [hg] at heq; cases heq
  | some t => rw [hg] at heq; cases heq; exact h

theorem StatsInv.allocVar {st st' : Strandal.EState} {p : Nat}
    (heq : st.allocVar = (p, st')) (h : StatsInv st) : StatsInv st' := by
  unfold Strandal.EState.allocVar at heq
  cases heq
  intro k
  have : ({ st.stats with alloc_vars := st.stats.alloc_vars + 1 } : SStats).get k
      = st.stats.get k := by cases k <;> rfl
  rw [this]; exact h k

theorem StatsInv.allocCell {st st' : Strandal.EState} {p : Nat} {c : SCell}
    (heq : st.allocCell c = (p, st')) (h : StatsInv st) : StatsInv st' := by
  unfold Strandal.EState.allocCell at heq
  cases heq
  intro k
  have : ({ st.stats with alloc_cells := st.stats.alloc_cells + 1 } : SStats).get k
      = st.stats.get k := by cases k <;> rfl
  rw [this]; exact h k

theorem StatsInv.incBinds {st : Strandal.EState} (h : StatsInv st) :
    StatsInv st.incBinds := by
  intro k
  have : st.incBinds.stats.get k = st.stats.get k := by cases k <;> rfl
  rw [this]; exact h k

theorem StatsInv.incConnects {st : Strandal.EState} (h : StatsInv st) :
    StatsInv st.incConnects := by
  intro k
  have : st.incConnects.stats.get k = st.stats.get k := by cases k <;> rfl
  rw [this]; exact h k

theorem StatsInv.assignValue {ak : AssignKind} {st : Strandal.EState}
    {v : SVarValue} {st' : Strandal.EState}
    (heq : assignValue ak st = (v, st')) (h : StatsInv st) : StatsInv st' := by
  cases ak with
  | link t => cases heq; exact h
  | assignEra => cases heq; exact h
  | assignCell cp c =>
    cases cp with
    | some p => cases heq; exact h
    | none =>
      unfold Strandal.assignValue Strandal.EState.allocCell at heq
      cases heq
      intro k
      have : ({ st.stats with alloc_cells := st.stats.alloc_cells + 1 } : SStats).get k
          = st.stats.get k := by cases k <;> rfl
      rw [this]; exact h k

theorem StatsInv.drainFrees :
    ∀ (l : List Nat) (st st' : Strandal.EState),
      drainFrees l st = some st' → StatsInv st → StatsInv st' := by
  intro l
  induction l with
  | nil => intro st st' heq h; cases heq; exact h
  | cons p rest ih =>
    intro st st' heq h
    unfold Strandal.drainFrees at heq
    cases hf : st.freeSlot p with
    | none => rw [hf] at heq; cases heq
    | some st1 =>
      rw [hf] at heq
      exact ih st1 st' heq (StatsInv.freeSlot hf h)

theorem StatsInv.walkVar :
    ∀ (ak : AssignKind) (fuel : Nat) (st : Strandal.EState) (fp : List Nat)
      (prev : Option Nat) (vp : Nat) (v : SVarValue) (st' : Strandal.EState)
      (fp' : List Nat),
      walkVar ak fuel st fp prev vp = some (v, st', fp') →
      StatsInv st → StatsInv st' := by
  intro ak fuel
  induction fuel with
  | zero => intro st fp prev vp v st' fp' heq; cases heq
  | succ n ih =>
    intro st fp prev vp v st' fp' heq h
    unfold Strandal.walkVar at heq
    cases hg : st.getVar vp with
    | none => rw [hg] at heq; cases heq
    | some oldVal =>
      rw [hg] at heq
      cases hav : Strandal.assignValue ak st with
      | mk newVal st1 =>
        rw [hav] at heq
        have h1 : StatsInv st1 := StatsInv.assignValue hav h
        have h2 : StatsInv (st1.setSlot vp (.var (some newVal))) :=
          StatsInv.setSlot h1 _ _
        simp only at heq
        cases oldVal with
        | none => cases heq; exact h2
        | some ov =>
          cases ov with
          | era => cases heq; exact h2
          | cell c => cases heq; exact h2
          | var w =>
            replace heq :
                (if some w ≠ prev then
                    match (st1.setSlot vp (.var (some newVal))).freeSlot vp with
                    | none => none
                    | some st3 => Strandal.walkVar ak n st3 fp (some vp) w
                  else
                    some (.var vp, st1.setSlot vp (.var (some newVal)), fp))
                  = some (v, st', fp') := heq
            split at heq
            · split at heq
              next hf => cases heq
              next st3 hf =>
                exact ih st3 fp (some vp) w v st' fp' heq (StatsInv.freeSlot hf h2)
            · cases heq; exact h2

theorem StatsInv.allocVar2 {st : Strandal.EState} (h : StatsInv st) :
    StatsInv st.allocVar.2 :=
  StatsInv.allocVar rfl h

theorem StatsInv.allocCell2 {st : Strandal.EState} (h : StatsInv st) (c : SCell) :
    StatsInv (st.allocCell c).2 :=
  StatsInv.allocCell rfl h

theorem StatsInv.iteState {c : Prop} [Decidable c] {s1 s2 : Strandal.EState}
    (h1 : StatsInv s1) (h2 : StatsInv s2) : StatsInv (if c then s1 else s2) := by
  split
  · exact h1
  · exact h2

set_option maxHeartbeats 2000000 in
/-- Every step of the strandal engine preserves the statistics invariant:
the per-kind counters stay in bijection with the trace of interactions
performed, because the eleven counters are incremented exactly at the
eleven rule-firing sites and nowhere else. -/
theorem engine_preserves_statsInv :
    ∀ fuel call st fp st2 fp2,
      engine fuel call st fp = some (st2, fp2) → StatsInv st → StatsInv st2 := by
  intro fuel
  induction fuel with
  | zero =>
    intro call st fp st2 fp2 h hInv
    simp [Strandal.engine] at h
  | succ n ih =>
    intro call st fp st2 fp2 h hInv
    cases call with
    | spawnEvalEquation l r fpc =>
      simp only [Strandal.engine] at h
      repeat' split at h
      all_goals try cases h
      all_goals solve_by_elim [ih, StatsInv.drainFrees]
    | spawnEvalCellTerm cp c t fpc =>
      simp only [Strandal.engine] at h
      repeat' split at h
      all_goals try cases h
      all_goals solve_by_elim [ih, StatsInv.drainFrees]
    | spawnEvalEraTerm t fpc =>
      simp only [Strandal.engine] at h
      repeat' split at h
      all_goals try cases h
      all_goals solve_by_elim [ih]
    | evalEquation l r =>
      simp only [Strandal.engine] at h
      repeat' split at h
      all_goals try cases h
      all_goals solve_by_elim [ih]
    | evalEraTerm t =>
      simp only [Strandal.engine] at h
      repeat' split at h
      all_goals try cases h
      all_goals solve_by_elim [ih]
    | evalCellTerm cp c t =>
      simp only [Strandal.engine] at h
      repeat' split at h
      all_goals try cases h
      all_goals solve_by_elim [ih]
    | evalVarTerm vp t =>
      simp only [Strandal.engine] at h
      repeat' split at h
      all_goals try cases h
      all_goals solve_by_elim [ih]
    | evalEraPtr p =>
      simp only [Strandal.engine] at h
      repeat' split at h
      all_goals try cases h
      all_goals solve_by_elim [ih]
    | evalEraCell cp c =>
      simp only [Strandal.engine] at h
      repeat' split at h
      all_goals try cases h
      all_goals solve_by_elim [ih]
    | evalCellCell lp lc rp rc =>
      simp only [Strandal.engine] at h
      repeat' split at h
      all_goals try cases h
      all_goals solve_by_elim [ih]
    | bindEra vp =>
      simp only [Strandal.engine] at h
      repeat' split at h
      all_goals try cases h
      all_goals
        solve_by_elim [ih, StatsInv.walkVar, StatsInv.incBinds]
    | bindCell vp cp c =>
      simp only [Strandal.engine] at h
      repeat' split at h
      all_goals try cases h
      all_goals
        solve_by_elim [ih, StatsInv.walkVar, StatsInv.incBinds]
    | connectVars lp rp =>
      simp only [Strandal.engine] at h
      have hc : StatsInv st.incConnects := StatsInv.incConnects hInv
      repeat' split at h
      all_goals try cases h
      all_goals
        first
        | solve_by_elim [ih, StatsInv.walkVar, hc]
        | skip
      case h_3 =>
        rename_i x1 rset stA fpA heq1 x2 stB fpB heq2
        exact ih _ _ _ _ _ h
          (StatsInv.walkVar _ _ _ _ _ _ _ _ _ heq2
            (StatsInv.walkVar _ _ _ _ _ _ _ _ _ heq1 hc))
      case h_1 =>
        rename_i x1 rset stA fpA heq1 x2 ocp stB fpB heq2 x3 c heq3
        exact ih _ _ _ _ _ h
          (StatsInv.walkVar _ _ _ _ _ _ _ _ _ heq2
            (StatsInv.walkVar _ _ _ _ _ _ _ _ _ heq1 hc))
    | anniEraEra =>
      simp only [Strandal.engine] at h
      cases h
      exact StatsInv.fire hInv _
    | anniLamLam lp lports rp rports =>
      simp only [Strandal.engine] at h
      cases h
      exact StatsInv.fire hInv _
    | anniAppApp lp lports rp rports =>
      simp only [Strandal.engine] at h
      cases h
      exact StatsInv.fire hInv _
    | reduceDupDup lp lports llbl rp rports rlbl =>
      simp only [Strandal.engine] at h
      repeat' split at h
      all_goals try cases h
      all_goals solve_by_elim [ih, StatsInv.fire]
    | anniDupDup lp lports rp rports =>
      simp only [Strandal.engine] at h
      repeat' split at h
      all_goals try cases h
      all_goals solve_by_elim [ih]
    | commDupDup lp lports rp rports =>
      simp only [Strandal.engine] at h
      repeat' split at h
      all_goals try cases h
      all_goals exact hInv
    | commEraApp cp ports =>
      simp only [Strandal.engine] at h
      have hf : ∀ k, StatsInv (st.fire k) := fun k => StatsInv.fire hInv k
      repeat' split at h
      all_goals try cases h
      all_goals solve_by_elim [ih, hf]
    | commEraLam cp ports =>
      simp only [Strandal.engine] at h
      have hf : ∀ k, StatsInv (st.fire k) := fun k => StatsInv.fire hInv k
      repeat' split at h
      all_goals try cases h
      all_goals solve_by_elim [ih, hf]
    | commEraDup cp ports lbl =>
      simp only [Strandal.engine] at h
      have hf : ∀ k, StatsInv (st.fire k) := fun k => StatsInv.fire hInv k
      repeat' split at h
      all_goals try cases h
      all_goals solve_by_elim [ih, hf]
    | commAppLam appP appPorts lamP lamPorts =>
      simp only [Strandal.engine] at h
      have hf : ∀ k, StatsInv (st.fire k) := fun k => StatsInv.fire hInv k
      repeat' split at h
      all_goals try cases h
      all_goals solve_by_elim [ih, hf]
    | commAppDup appP appPorts dupP dupPorts dupLbl =>
      simp only [Strandal.engine] at h
      repeat' split at h
      all_goals try cases h
      all_goals solve_by_elim [ih, StatsInv.fire]
    | commLamDup lamP lamPorts dupP dupPorts dupLbl =>
      simp only [Strandal.engine] at h
      repeat' split at h
      all_goals try cases h
      all_goals solve_by_elim [ih, StatsInv.fire]
    | commute lp lports lf lalloc rp rports rf ralloc =>
      simp only [Strandal.engine] at h
      have hD : StatsInv (((st.allocVar.2).allocVar.2).allocVar.2).allocVar.2 :=
        StatsInv.allocVar2 (StatsInv.allocVar2 (StatsInv.allocVar2 (StatsInv.allocVar2 hInv)))
      have hE : ∀ c : SCell,
          StatsInv (if lalloc = true
            then (((((st.allocVar.2).allocVar.2).allocVar.2).allocVar.2).allocCell c).2
            else (((st.allocVar.2).allocVar.2).allocVar.2).allocVar.2) :=
        fun c => StatsInv.iteState (StatsInv.allocCell2 hD c) hD
      have hF : ∀ c cc : SCell,
          StatsInv (if ralloc = true
            then (((if lalloc = true
              then (((((st.allocVar.2).allocVar.2).allocVar.2).allocVar.2).allocCell c).2
              else (((st.allocVar.2).allocVar.2).allocVar.2).allocVar.2)).allocCell cc).2
            else (if lalloc = true
              then (((((st.allocVar.2).allocVar.2).allocVar.2).allocVar.2).allocCell c).2
              else (((st.allocVar.2).allocVar.2).allocVar.2).allocVar.2)) :=
        fun c cc => StatsInv.iteState (StatsInv.allocCell2 (hE c) cc) (hE c)
      repeat' split at h
      all_goals try cases h
      all_goals
        first
        | solve_by_elim [ih, hF, hE, hD, hInv]
        | (rename_i xC sC fC heC xB sB fB heB xA sA fA heA hflag
           exact ih _ _ _ _ _ h
             (ih _ _ _ _ _ heA (ih _ _ _ _ _ heB (ih _ _ _ _ _ heC (hF _ _)))))
        | (rename_i xB sB fB heB xA sA fA heA hflag
           exact ih _ _ _ _ _ h
             (ih _ _ _ _ _ heA (ih _ _ _ _ _ heB (hF _ _))))

theorem ruleCounts_sum :
    ∀ l : List RuleKind,
      l.count .anniEraEra + l.count .anniAppApp + l.count .anniLamLam +
          l.count .anniDupDup +
        (l.count .commDupDup + l.count .commEraApp + l.count .commEraLam +
          l.count .commEraDup + l.count .commAppLam + l.count .commAppDup +
          l.count .commLamDup) = l.length := by
  intro l
  induction l with
  | nil => rfl
  | cons k rest ih =>
    cases k <;> simp [List.count_cons] <;> omega

theorem statsInv_annis_comms {st : Strandal.EState} (h : StatsInv st) :
    st.stats.annihilations + st.stats.commutations = st.events.length := by
  have e1 : st.stats.anni_era_era = st.events.count .anniEraEra := h .anniEraEra
  have e2 : st.stats.anni_app_app = st.events.count .anniAppApp := h .anniAppApp
  have e3 : st.stats.anni_lam_lam = st.events.count .anniLamLam := h .anniLamLam
  have e4 : st.stats.anni_dup_dup = st.events.count .anniDupDup := h .anniDupDup
  have e5 : st.stats.comm_dup_dup = st.events.count .commDupDup := h .commDupDup
  have e6 : st.stats.comm_era_app = st.events.count .commEraApp := h .commEraApp
  have e7 : st.stats.comm_era_lam = st.events.count .commEraLam := h .commEraLam
  have e8 : st.stats.comm_era_dup = st.events.count .commEraDup := h .commEraDup
  have e9 : st.stats.comm_app_lam = st.events.count .commAppLam := h .commAppLam
  have e10 : st.stats.comm_app_dup = st.events.count .commAppDup := h .commAppDup
  have e11 : st.stats.comm_lam_dup = st.events.count .commLamDup := h .commLamDup
  unfold SStats.annihilations SStats.commutations
  rw [e1, e2, e3, e4, e5, e6, e7, e8, e9, e10, e11]
  exact ruleCounts_sum st.events

theorem evalBody_preserves_statsInv :
    ∀ (body : List (STermPtr × STermPtr)) (fuel : Nat) (st st' : Strandal.EState),
      evalBody fuel body st = some st' → StatsInv st → StatsInv st' := by
  intro body
  induction body with
  | nil => intro fuel st st' h hInv; cases h; exact hInv
  | cons e rest ih =>
    intro fuel st st' h hInv
    cases e with
    | mk l r =>
      unfold Strandal.evalBody at h
      cases he : engine fuel (.spawnEvalEquation l r none) st [] with
      | none => rw [he] at h; cases h
      | some stfp =>
        rw [he] at h
        exact ih fuel stfp.1 st' h
          (engine_preserves_statsInv fuel _ st [] stfp.1 stfp.2
            (by rw [he]) hInv)

/-- C7: after any terminating evaluation, the statistics satisfy the
completeness contract: `GlobalStats::annihilations` (the sum of the four
annihilation counters, `stats.rs` lines 79-81) plus
`GlobalStats::commutations` (the sum of the seven commutation counters,
lines 83-91) equals the total number of interactions performed — the
length of the ghost trace recording every rewrite-rule firing — and each
per-kind counter equals the number of interactions of exactly its kind,
so the eleven counters partition the interactions. -/
theorem C7_stats_completeness :
    ∀ fuel net res, runtimeEval fuel net = some res →
      res.2.stats.annihilations + res.2.stats.commutations
          = res.2.events.length ∧
      ∀ k, res.2.stats.get k = res.2.events.count k := by
  intro fuel net res h
  unfold runtimeEval at h
  cases hb : evalBody fuel net.body { store := net.store } with
  | none => rw [hb] at h; cases h
  | some st' =>
    rw [hb] at h
    cases h
    have hInv0 : StatsInv { store := net.store } := by
      intro k; cases k <;> rfl
    have hInv : StatsInv st' :=
      evalBody_preserves_statsInv net.body fuel _ st' hb hInv0
    exact ⟨statsInv_annis_comms hInv, hInv⟩

/-- Witness for C7 at the net `* ~ *`: one interaction, one annihilation
counter incremented. -/
theorem C7_stats_completeness_witness :
    c7Res.2.stats.annihilations + c7Res.2.stats.commutations
        = c7Res.2.events.length ∧
    ∀ k, c7Res.2.stats.get k = c7Res.2.events.count k :=
  C7_stats_completeness 5 c7Net c7Res (by decide)

end Claims
